import Mathlib

/-!
Shallow embedding of the sleepy SpO2 sync program (src/fitbit_api.py,
src/fitbit_data.py, src/po_data.py, src/database.py) and verification of
the specification claims about it.

HTTP effects are modelled by a scripted oracle (`World`): the i-th resource
GET receives the i-th entry of `resourceScript`, the i-th token-refresh POST
the i-th entry of `refreshScript`, and every call is recorded in a trace.
Python exceptions are modelled by `Except` with an error type `PyErr`
distinguishing the exception classes the code catches.
-/

namespace Sleepy

/-- Python `datetime`: a proleptic-Gregorian day number for the date part and
the second within the day.  Comparison is lexicographic, matching `datetime`
ordering; tz-awareness is dropped (all datetimes in one cycle are comparable
in the source). -/
structure PyDateTime where
days : Int
secs : Nat
deriving Repr, DecidableEq

/-- Day number of a civil date (proleptic Gregorian), the standard
days-from-civil computation; day 0 is 1970-01-01, matching what
`strftime("%Y-%m-%d")` renders injectively. -/
def daysFromCivil (y m d : Int) : Int :=
  let y2 := if m ≤ 2 then y - 1 else y
  let era := (if 0 ≤ y2 then y2 else y2 - 399) / 400
  let yoe := y2 - era * 400
  let mp := (m + 9) % 12
  let doy := (153 * mp + 2) / 5 + d - 1
  let doe := yoe * 365 + yoe / 4 - yoe / 100 + doy
  era * 146097 + doe - 719468

/-- Python `datetime(y, m, d)` at midnight. -/
def PyDateTime.ofYmd (y m d : Int) : PyDateTime :=
  ⟨daysFromCivil y m d, 0⟩

/-- Python `dt + timedelta(days=n)` (also used with negative `n` for
subtraction). -/
def PyDateTime.addDays (dt : PyDateTime) (n : Int) : PyDateTime :=
  ⟨dt.days + n, dt.secs⟩

/-- Python `a < b` on datetimes (lexicographic). -/
def PyDateTime.Lt (a b : PyDateTime) : Prop :=
  a.days < b.days ∨ (a.days = b.days ∧ a.secs < b.secs)

instance (a b : PyDateTime) : Decidable (a.Lt b) := by
  unfold PyDateTime.Lt; infer_instance

/-- Python `a <= b` on datetimes (lexicographic). -/
def PyDateTime.Le (a b : PyDateTime) : Prop :=
  a.days < b.days ∨ (a.days = b.days ∧ a.secs ≤ b.secs)

instance (a b : PyDateTime) : Decidable (a.Le b) := by
  unfold PyDateTime.Le; infer_instance

/-- Python `min(a, b)` on datetimes: returns `a` on ties. -/
def pymin (a b : PyDateTime) : PyDateTime :=
  if b.Lt a then b else a

theorem pymin_le_right (a b : PyDateTime) : (pymin a b).Le b := by
  unfold pymin PyDateTime.Le PyDateTime.Lt
  split
  · right; exact ⟨rfl, le_rfl⟩
  · rename_i h
    rcases lt_trichotomy a.days b.days with hlt | heq | hgt
    · exact Or.inl hlt
    · right; exact ⟨heq, by omega⟩
    · exact absurd (Or.inl hgt) h

/-- One entry of the SpO2 intraday payload: a minute record with a value and
a local timestamp (`{"value": ..., "minute": ...}`). -/
structure SpO2Minute where
value : Rat
minute : PyDateTime
deriving Repr, DecidableEq

/-- One day of the SpO2 intraday payload (`{"dateTime": ..., "minutes": [...]}`);
`date` is the day number rendered by the `dateTime` field. -/
structure SpO2Day where
date : Int
minutes : List SpO2Minute
deriving Repr, DecidableEq

/-- Response body of an HTTP error (`ex.response.json()`), kept abstract as a
string. -/
abbrev Json := String

/-- The token pair returned by the OAuth token endpoint. -/
structure TokenPair where
access : String
refresh : String
deriving Repr, DecidableEq

/-- The Python exception classes the program distinguishes. -/
inductive PyErr where
| httpStatus (code : Nat) (body : Json)
| keyError (key : String)
| credentialsError (detail : Option Json)
| valueError (raw : String)
| typeError
deriving Repr, DecidableEq

/-- The `creds` dict: an insertion-ordered association list of string keys to
string values, as Python dicts behave for these operations. -/
abbrev Creds := List (String × String)

/-- Python `d.get(k)` as an `Option`. -/
def dictGet (d : Creds) (k : String) : Option String :=
  (d.find? (fun p => p.1 = k)).map (fun p => p.2)

/-- Python `d.get(k, dflt)`. -/
def dictGetD (d : Creds) (k dflt : String) : String :=
  (dictGet d k).getD dflt

/-- Python `d[k] = v`: update in place if the key exists, else append. -/
def dictSet (d : Creds) (k v : String) : Creds :=
  if (dictGet d k).isSome then
    d.map (fun p => if p.1 = k then (k, v) else p)
  else
    d ++ [(k, v)]

/-- The URL path of a SpO2 request, determined by the begin and end dates
rendered with `strftime("%Y-%m-%d")` (injective on dates, so the pair of day
numbers is kept). -/
abbrev UrlPath := Int × Int

/-- Scripted HTTP oracle with a call trace.  `resourceScript i` is the
outcome of the (i+1)-th GET to the resource server (`.error (code, body)`
models `raise_for_status` throwing `httpx.HTTPStatusError`);
`refreshScript i` likewise for POSTs to the token endpoint.
`resourceCalls` records `(access token, url)` per GET, oldest first;
`refreshCalls` records the refresh token sent per POST. -/
structure World where
resourceScript : Nat → Except (Nat × Json) (List SpO2Day)
refreshScript : Nat → Except (Nat × Json) TokenPair
resourceCalls : List (String × UrlPath)
refreshCalls : List String

/-- `_do_resource_get` (fitbit_api.py): a GET to the resource server with a
bearer token; the response is the next scripted one. -/
def api_do_resource_get (w : World) (accessToken : String) (url : UrlPath) :
    Except (Nat × Json) (List SpO2Day) × World :=
  (w.resourceScript w.resourceCalls.length,
   { w with resourceCalls := w.resourceCalls ++ [(accessToken, url)] })

/-- `_do_auth_post` (fitbit_api.py), specialised to the refresh grant used by
`_refresh_access_token`: a POST of the refresh token to the token endpoint. -/
def api_do_auth_post (w : World) (refreshToken : String) :
    Except (Nat × Json) TokenPair × World :=
  (w.refreshScript w.refreshCalls.length,
   { w with refreshCalls := w.refreshCalls ++ [refreshToken] })

/-- `_refresh_access_token` (fitbit_api.py): reads `refresh_token`,
`client_id` and `client_secret` from the creds dict (KeyError if absent),
POSTs to the token endpoint; on success writes both new tokens into the dict
and returns the new access token; an HTTP error propagates with the dict
untouched. -/
def api_refresh_access_token (creds : Creds) (w : World) :
    Except PyErr String × Creds × World :=
  match dictGet creds "refresh_token" with
  | none => (.error (.keyError "refresh_token"), creds, w)
  | some rt =>
    match dictGet creds "client_id" with
    | none => (.error (.keyError "client_id"), creds, w)
    | some _ =>
      match dictGet creds "client_secret" with
      | none => (.error (.keyError "client_secret"), creds, w)
      | some _ =>
        match api_do_auth_post w rt with
        | (.error (code, body), w1) => (.error (.httpStatus code body), creds, w1)
        | (.ok pair, w1) =>
          let creds1 := dictSet (dictSet creds "access_token" pair.access)
            "refresh_token" pair.refresh
          (.ok pair.access, creds1, w1)

/-- `_api_request` (fitbit_api.py): raises `CredentialsError` on an empty
creds dict; otherwise GETs with the current access token; on a 401 refreshes
once and retries once, converting an HTTP error of the refresh or the retry
into `CredentialsError` carrying the error response body; a non-401 HTTP
error propagates. -/
def api_request (creds : Creds) (url : UrlPath) (w : World) :
    Except PyErr (List SpO2Day) × Creds × World :=
  if creds.isEmpty then (.error (.credentialsError none), creds, w)
  else
    let accessToken := dictGetD creds "access_token" ""
    match api_do_resource_get w accessToken url with
    | (.ok data, w1) => (.ok data, creds, w1)
    | (.error (code, body), w1) =>
      if code = 401 then
        match api_refresh_access_token creds w1 with
        | (.ok newToken, creds1, w2) =>
          match api_do_resource_get w2 newToken url with
          | (.ok data, w3) => (.ok data, creds1, w3)
          | (.error (_, body2), w3) =>
            (.error (.credentialsError (some body2)), creds1, w3)
        | (.error (.httpStatus _ body2), creds1, w2) =>
          (.error (.credentialsError (some body2)), creds1, w2)
        | (.error e, creds1, w2) => (.error e, creds1, w2)
      else (.error (.httpStatus code body), creds, w1)

/-- `get_spo2` (fitbit_api.py): defaults the end of the range to now, renders
the two dates into the URL path and delegates to `_api_request`. -/
def get_spo2 (creds : Creds) (beginDt : PyDateTime) (endOpt : Option PyDateTime)
    (now : PyDateTime) (w : World) : Except PyErr (List SpO2Day) × Creds × World :=
  let endDt := endOpt.getD now
  api_request creds (beginDt.days, endDt.days) w

/-- The hard floor date `datetime(2024, 8, 1)` of the backfill walk
(fitbit_data.py line 52). -/
def fitbitFloor : PyDateTime := PyDateTime.ofYmd 2024 8 1

/-- A measurement point handed to the database layer (database.py `Point`). -/
inductive Point where
| spo2 (time : PyDateTime) (value : Rat) (source : String)
| pulse (time : PyDateTime) (value : Int) (source : String)
deriving Repr, DecidableEq

/-- The `while` loop of `_fetch_spo2` (fitbit_data.py lines 52-59): while
`begin > datetime(2024, 8, 1)`, fetch `[begin, end]`; stop on an empty chunk;
otherwise extend the accumulator with the chunk and step the window back by
15 days (`end = begin - 1 day; begin = end - 14 days`).  Errors from
`get_spo2` propagate. -/
def backfillLoop (creds : Creds) (now beginDt endDt : PyDateTime)
    (acc : List SpO2Day) (w : World) : Except PyErr (List SpO2Day) × Creds × World :=
  if h : fitbitFloor.Lt beginDt then
    match get_spo2 creds beginDt (some endDt) now w with
    | (.error e, creds1, w1) => (.error e, creds1, w1)
    | (.ok chunk, creds1, w1) =>
      if chunk.isEmpty then (.ok acc, creds1, w1)
      else backfillLoop creds1 now (beginDt.addDays (-15)) (beginDt.addDays (-1))
        (acc ++ chunk) w1
  else (.ok acc, creds, w)
termination_by (beginDt.days - fitbitFloor.days + 15).toNat
decreasing_by
  unfold PyDateTime.Lt at h
  simp only [PyDateTime.addDays]
  omega

/-- `_fetch_spo2` (fitbit_data.py): with a watermark, a single fetch from
`min(since + 1 day, now)`; without one, the backward backfill walk starting
at `[now - 14 days, now]`. -/
def fetch_spo2 (creds : Creds) (since : Option PyDateTime) (now : PyDateTime)
    (w : World) : Except PyErr (List SpO2Day) × Creds × World :=
  match since with
  | some s => get_spo2 creds (pymin (s.addDays 1) now) none now w
  | none => backfillLoop creds now (now.addDays (-14)) now [] w

/-- The database handle: the watermark the `last()` query reports for a
source, and the list of bulk writes issued so far. -/
structure Db where
latestFitbit : Option PyDateTime
writes : List (List Point)
deriving Repr, DecidableEq

/-- `_timestamp_to_utc` (fitbit_data.py) with `ZoneInfo` modelled as a fixed
offset in days/seconds pairs is not needed beyond shifting; the offset is
applied to the day seconds, carrying into the day number. -/
def timestamp_to_utc (ts : PyDateTime) (tzOffsetSecs : Int) : PyDateTime :=
  let total := ts.days * 86400 + (ts.secs : Int) - tzOffsetSecs
  ⟨total / 86400, (total % 86400).toNat⟩

/-- `_store_spo2` (fitbit_data.py): one batch write of every minute record of
every day, tagged with source "Fitbit", timestamps converted to UTC. -/
def store_spo2 (tzOffsetSecs : Int) (db : Db) (data : List SpO2Day) : Db :=
  let pts := data.flatMap (fun day => day.minutes.map (fun item =>
    Point.spo2 (timestamp_to_utc item.minute tzOffsetSecs) item.value "Fitbit"))
  { db with writes := db.writes ++ [pts] }

/-- The credentials file: `none` models an absent file
(`FileNotFoundError`); `some d` a file whose JSON parses to the dict `d`
(json round-trips, so file contents are compared as dicts). -/
structure Fs where
fitbitCreds : Option Creds
deriving Repr, DecidableEq

/-- Which `except` branch of `update` (fitbit_data.py) ended the cycle. -/
inductive UpdateOutcome where
| ok
| fileNotFound
| httpError (code : Nat) (body : Json)
| otherError (e : PyErr)
deriving Repr, DecidableEq

/-- `update` (fitbit_data.py): load the creds file, read the watermark,
fetch, store, then write the possibly-updated creds back; a missing file,
an `HTTPStatusError` or any other exception is caught and logged, and the
write-back is skipped because it sits after the fetch inside the `try`. -/
def update (fs : Fs) (db : Db) (tzOffsetSecs : Int) (now : PyDateTime)
    (w : World) : UpdateOutcome × Fs × Db × World :=
  match fs.fitbitCreds with
  | none => (.fileNotFound, fs, db, w)
  | some creds =>
    match fetch_spo2 creds db.latestFitbit now w with
    | (.error (.httpStatus code body), _, w1) => (.httpError code body, fs, db, w1)
    | (.error e, _, w1) => (.otherError e, fs, db, w1)
    | (.ok data, creds1, w1) =>
      (.ok, ⟨some creds1⟩, store_spo2 tzOffsetSecs db data, w1)

/-- `_Batch` (database.py): pending records and the list of bulk writes the
write API has issued. -/
structure Batch where
bucket : String
records : List Point
writes : List (List Point)
deriving Repr, DecidableEq

/-- `_Batch.__init__`: a fresh batch with an empty record buffer. -/
def Batch.init (bucket : String) : Batch := ⟨bucket, [], []⟩

/-- `_Batch.__exit__` (database.py lines 78-81): unconditionally issue the
bulk write of the buffered records, then clear the buffer. -/
def Batch.exitCm (b : Batch) : Batch :=
  { b with records := [], writes := b.writes ++ [b.records] }

/-- `_Batch.add_spo2_measurement`: append one spo2 point to the buffer. -/
def Batch.add_spo2_measurement (b : Batch) (timestamp : PyDateTime) (spo2 : Rat)
    (source : String) : Batch :=
  { b with records := b.records ++ [Point.spo2 timestamp spo2 source] }

/-- `_Batch.add_pulse_measurement`: append one pulse point to the buffer. -/
def Batch.add_pulse_measurement (b : Batch) (timestamp : PyDateTime) (pulse : Int)
    (source : String) : Batch :=
  { b with records := b.records ++ [Point.pulse timestamp pulse source] }

/-- A CSV cell holding a value fed to `float(...)` or `int(...)`
(po_data.py): it parses as a number, is present but non-numeric (the call
raises `ValueError`), or is missing (`None` from a short row / absent
header, so the call raises `TypeError`). -/
inductive NumField where
| num (q : Rat)
| str (s : String)
| missing
deriving Repr, DecidableEq

/-- A CSV cell fed to `int(...)`: same cases as `NumField` but an integer
value (`int` also raises `ValueError` on a fractional string). -/
inductive IntField where
| num (n : Int)
| str (s : String)
| missing
deriving Repr, DecidableEq

/-- The combined `Date`/`Time` cells as fed to `strptime` (po_data.py line
92): a valid timestamp, a malformed one (`ValueError`), or missing cells
(`TypeError` on the string concatenation). -/
inductive DateField where
| valid (ts : PyDateTime)
| invalid (raw : String)
| missing
deriving Repr, DecidableEq

/-- One row of a pulse-oximeter CSV file. -/
structure CsvRow where
date : DateField
spo2 : NumField
pr : IntField
deriving Repr, DecidableEq

/-- One parsed measurement dict produced by `_fetch_spo2_and_pulse_rate`. -/
structure ParsedRow where
timestamp : PyDateTime
spo2 : Rat
pulse : Int
deriving Repr, DecidableEq

/-- The row loop of `_fetch_spo2_and_pulse_rate` (po_data.py lines 91-110)
over one file: `strptime` runs outside the `try`, so a malformed or missing
date aborts with the exception; inside the `try`, a `ValueError` from
`float(row["SpO2(%)"])` or `int(row["PR(bpm)"])` logs the row and skips it,
while a `TypeError` (missing cell) is not caught and aborts.  Returns the
parsed measurements and the log of skipped rows. -/
def processRows : List CsvRow → Except PyErr (List ParsedRow × List CsvRow)
| [] => .ok ([], [])
| row :: rest =>
  match row.date with
  | .missing => .error .typeError
  | .invalid raw => .error (.valueError raw)
  | .valid ts =>
    match row.spo2 with
    | .missing => .error .typeError
    | .str _ =>
      match processRows rest with
      | .error e => .error e
      | .ok (ms, skipped) => .ok (ms, row :: skipped)
    | .num s =>
      match row.pr with
      | .missing => .error .typeError
      | .str _ =>
        match processRows rest with
        | .error e => .error e
        | .ok (ms, skipped) => .ok (ms, row :: skipped)
      | .num p =>
        match processRows rest with
        | .error e => .error e
        | .ok (ms, skipped) => .ok (⟨ts, s, p⟩ :: ms, skipped)

/-- `_fetch_spo2_and_pulse_rate` (po_data.py), from the per-file contents on:
rows of every listed file are parsed in order into one measurement list; an
uncaught exception in any file aborts the whole fetch. -/
def fetch_spo2_and_pulse_rate (files : List (List CsvRow)) :
    Except PyErr (List ParsedRow × List CsvRow) :=
  match files with
  | [] => .ok ([], [])
  | f :: rest =>
    match processRows f with
    | .error e => .error e
    | .ok (ms, skipped) =>
      match fetch_spo2_and_pulse_rate rest with
      | .error e => .error e
      | .ok (ms2, skipped2) => .ok (ms ++ ms2, skipped ++ skipped2)

theorem dictGet_cons (hd : String × String) (tl : Creds) (k : String) :
    dictGet (hd :: tl) k = if hd.1 = k then some hd.2 else dictGet tl k := by
  unfold dictGet
  by_cases hh : hd.1 = k
  · rw [List.find?_cons_of_pos _ (by simp [hh]), if_pos hh]
    rfl
  · rw [List.find?_cons_of_neg _ (by simp [hh]), if_neg hh]

theorem dictGet_map_same (d : Creds) (k v : String)
    (hin : (dictGet d k).isSome = true) :
    dictGet (d.map (fun p => if p.1 = k then (k, v) else p)) k = some v := by
  induction d with
  | nil => simp [dictGet] at hin
  | cons hd tl ih =>
    rw [dictGet_cons] at hin
    by_cases hh : hd.1 = k
    · simp only [List.map_cons, if_pos hh]
      rw [dictGet_cons]
      simp
    · rw [if_neg hh] at hin
      simp only [List.map_cons, if_neg hh]
      rw [dictGet_cons, if_neg hh]
      exact ih hin

theorem dictGet_append_single_none (d : Creds) (k v : String)
    (hnin : dictGet d k = none) :
    dictGet (d ++ [(k, v)]) k = some v := by
  induction d with
  | nil => simp [dictGet_cons, dictGet]
  | cons hd tl ih =>
    rw [dictGet_cons] at hnin
    by_cases hh : hd.1 = k
    · rw [if_pos hh] at hnin
      exact absurd hnin (by simp)
    · rw [if_neg hh] at hnin
      rw [List.cons_append, dictGet_cons, if_neg hh]
      exact ih hnin

theorem dictGet_dictSet_same (d : Creds) (k v : String) :
    dictGet (dictSet d k v) k = some v := by
  unfold dictSet
  by_cases hin : (dictGet d k).isSome
  · rw [if_pos hin]; exact dictGet_map_same d k v hin
  · rw [if_neg hin]
    exact dictGet_append_single_none d k v (Option.not_isSome_iff_eq_none.mp hin)

theorem dictGet_map_ne (d : Creds) (k v k2 : String) (hne : k2 ≠ k) :
    dictGet (d.map (fun p => if p.1 = k then (k, v) else p)) k2 = dictGet d k2 := by
  induction d with
  | nil => rfl
  | cons hd tl ih =>
    by_cases hh : hd.1 = k
    · have hh2 : ¬ hd.1 = k2 := by rw [hh]; exact fun h => hne h.symm
      have hk2 : ¬ k = k2 := fun h => hne h.symm
      simp only [List.map_cons, if_pos hh]
      rw [dictGet_cons, dictGet_cons, if_neg hk2, if_neg hh2]
      exact ih
    · simp only [List.map_cons, if_neg hh]
      rw [dictGet_cons, dictGet_cons]
      by_cases hh2 : hd.1 = k2
      · rw [if_pos hh2, if_pos hh2]
      · rw [if_neg hh2, if_neg hh2]
        exact ih

theorem dictGet_append_single_ne (d : Creds) (k v k2 : String) (hne : k2 ≠ k) :
    dictGet (d ++ [(k, v)]) k2 = dictGet d k2 := by
  induction d with
  | nil =>
    have hk2 : ¬ k = k2 := fun h => hne h.symm
    simp [dictGet_cons, if_neg hk2, dictGet]
  | cons hd tl ih =>
    rw [List.cons_append, dictGet_cons, dictGet_cons]
    by_cases hh2 : hd.1 = k2
    · rw [if_pos hh2, if_pos hh2]
    · rw [if_neg hh2, if_neg hh2]
      exact ih

theorem dictGet_dictSet_ne (d : Creds) (k v k2 : String) (hne : k2 ≠ k) :
    dictGet (dictSet d k v) k2 = dictGet d k2 := by
  unfold dictSet
  by_cases hin : (dictGet d k).isSome
  · rw [if_pos hin]; exact dictGet_map_ne d k v k2 hne
  · rw [if_neg hin]; exact dictGet_append_single_ne d k v k2 hne

/-- C10: with an empty (falsy) creds dict, `_api_request` raises
`CredentialsError` immediately: no HTTP call is recorded (the world is
returned untouched) and the credential record is unchanged. -/
theorem claim_c10_empty_creds_rejected (url : UrlPath) (w : World) :
    api_request [] url w = (.error (.credentialsError none), [], w) := rfl

/-- C9: `_Batch.__exit__` always issues exactly one bulk write of the
buffered records — also when zero measurements were added, in which case the
write carries the empty point list — never fails (it is a total function of
the batch state), and clears the buffer afterward. -/
theorem claim_c9_batch_commit_flush (b : Batch) (bucket : String) :
    b.exitCm.writes = b.writes ++ [b.records] ∧
    b.exitCm.records = [] ∧
    (Batch.init bucket).exitCm.writes = [[]] ∧
    (Batch.init bucket).exitCm.records = [] :=
  ⟨rfl, rfl, rfl, rfl⟩

/-- C5: `_refresh_access_token` replaces the access and refresh tokens
atomically: on a successful token-endpoint response both fields of the
credential record are updated and the new access token is returned; on an
HTTP error the record is returned completely unmodified, so it never holds a
partially-updated token pair. -/
theorem claim_c5_refresh_atomic (creds : Creds) (w : World) (rt cid cs : String)
    (hrt : dictGet creds "refresh_token" = some rt)
    (hcid : dictGet creds "client_id" = some cid)
    (hcs : dictGet creds "client_secret" = some cs) :
    (∀ pair : TokenPair, w.refreshScript w.refreshCalls.length = .ok pair →
      api_refresh_access_token creds w =
        (.ok pair.access,
         dictSet (dictSet creds "access_token" pair.access) "refresh_token" pair.refresh,
         { w with refreshCalls := w.refreshCalls ++ [rt] }) ∧
      dictGet (api_refresh_access_token creds w).2.1 "access_token" = some pair.access ∧
      dictGet (api_refresh_access_token creds w).2.1 "refresh_token" = some pair.refresh) ∧
    (∀ (code : Nat) (body : Json),
      w.refreshScript w.refreshCalls.length = .error (code, body) →
      api_refresh_access_token creds w =
        (.error (.httpStatus code body), creds,
         { w with refreshCalls := w.refreshCalls ++ [rt] })) := by
  constructor
  · intro pair hok
    have heq : api_refresh_access_token creds w =
        (.ok pair.access,
         dictSet (dictSet creds "access_token" pair.access) "refresh_token" pair.refresh,
         { w with refreshCalls := w.refreshCalls ++ [rt] }) := by
      simp only [api_refresh_access_token, hrt, hcid, hcs, api_do_auth_post, hok]
    refine ⟨heq, ?_, ?_⟩
    · rw [heq]
      rw [dictGet_dictSet_ne _ _ _ _ (by decide)]
      exact dictGet_dictSet_same _ _ _
    · rw [heq]
      exact dictGet_dictSet_same _ _ _
  · intro code body herr
    simp only [api_refresh_access_token, hrt, hcid, hcs, api_do_auth_post, herr]

/-- Concrete credential record for the C5 witness. -/
def w5creds : Creds :=
  [("client_id", "cid"), ("client_secret", "cs"),
   ("access_token", "a0"), ("refresh_token", "r0")]

/-- Concrete scripted world for the C5 witness: the refresh succeeds with a
new token pair. -/
def w5world : World :=
  ⟨fun _ => .ok [], fun _ => .ok ⟨"a1", "r1"⟩, [], []⟩

theorem claim_c5_witness :
    dictGet w5creds "refresh_token" = some "r0" ∧
    (api_refresh_access_token w5creds w5world =
      (.ok "a1",
       dictSet (dictSet w5creds "access_token" "a1") "refresh_token" "r1",
       { w5world with refreshCalls := ["r0"] }) ∧
     dictGet (api_refresh_access_token w5creds w5world).2.1 "access_token" = some "a1" ∧
     dictGet (api_refresh_access_token w5creds w5world).2.1 "refresh_token" = some "r1") :=
  ⟨rfl, (claim_c5_refresh_atomic w5creds w5world "r0" "cid" "cs" rfl rfl rfl).1
    ⟨"a1", "r1"⟩ rfl⟩

/-- C1: when the first resource GET returns 401, `_api_request` performs
exactly one token refresh and retries the GET exactly once with the new
access token, having updated the in-memory credential record; a successful
retry returns its data, while an HTTP error of the retry — or of the refresh
itself, which then prevents any retry — raises `CredentialsError` with no
further resource call. -/
theorem claim_c1_refresh_retry_once (creds : Creds)
    (rs : Nat → Except (Nat × Json) (List SpO2Day))
    (fs : Nat → Except (Nat × Json) TokenPair)
    (url : UrlPath) (rt cid cs : String) (body : Json)
    (hne : creds ≠ [])
    (hrt : dictGet creds "refresh_token" = some rt)
    (hcid : dictGet creds "client_id" = some cid)
    (hcs : dictGet creds "client_secret" = some cs)
    (h401 : rs 0 = .error (401, body)) :
    (∀ pair : TokenPair, fs 0 = .ok pair →
      api_request creds url ⟨rs, fs, [], []⟩ =
        ((match rs 1 with
          | .ok data => .ok data
          | .error (_, body2) => .error (.credentialsError (some body2))),
         dictSet (dictSet creds "access_token" pair.access) "refresh_token" pair.refresh,
         ⟨rs, fs, [(dictGetD creds "access_token" "", url), (pair.access, url)], [rt]⟩)) ∧
    (∀ (code2 : Nat) (body2 : Json), fs 0 = .error (code2, body2) →
      api_request creds url ⟨rs, fs, [], []⟩ =
        (.error (.credentialsError (some body2)), creds,
         ⟨rs, fs, [(dictGetD creds "access_token" "", url)], [rt]⟩)) := by
  have hemp : creds.isEmpty = false := by
    cases creds with
    | nil => exact absurd rfl hne
    | cons c0 ctl => rfl
  constructor
  · intro pair hok
    rcases hr : rs 1 with ⟨c2, b2⟩ | data <;>
      simp [api_request, api_do_resource_get, api_refresh_access_token,
        api_do_auth_post, hemp, h401, hrt, hcid, hcs, hok, hr]
  · intro code2 body2 herr
    simp [api_request, api_do_resource_get, api_refresh_access_token,
      api_do_auth_post, hemp, h401, hrt, hcid, hcs, herr]

/-- Resource script for the C1 witness: 401 on the first GET, 200 with one
day of data on the second. -/
def c1rscript : Nat → Except (Nat × Json) (List SpO2Day) :=
  fun n => match n with
  | 0 => .error (401, "expired")
  | _ => .ok [⟨20002, []⟩]

/-- Refresh script for the C1 witness: the refresh succeeds with a new token
pair. -/
def c1fscript : Nat → Except (Nat × Json) TokenPair :=
  fun _ => .ok ⟨"a1", "r1"⟩

theorem claim_c1_witness :
    w5creds ≠ [] ∧
    c1rscript 0 = .error (401, "expired") ∧
    api_request w5creds (100, 200) ⟨c1rscript, c1fscript, [], []⟩ =
      (.ok [⟨20002, []⟩],
       dictSet (dictSet w5creds "access_token" "a1") "refresh_token" "r1",
       ⟨c1rscript, c1fscript, [("a0", (100, 200)), ("a1", (100, 200))], ["r0"]⟩) :=
  ⟨by simp [w5creds], rfl,
   (claim_c1_refresh_retry_once w5creds c1rscript c1fscript (100, 200)
      "r0" "cid" "cs" "expired" (by simp [w5creds]) rfl rfl rfl rfl).1
     ⟨"a1", "r1"⟩ rfl⟩

/-- C2: with a watermark `s`, `_fetch_spo2` issues a single resource request
whose window runs from `min(s + 1 day, now)` — the begin clipped so it never
exceeds now — to now. -/
theorem claim_c2_incremental_window (creds : Creds)
    (rs : Nat → Except (Nat × Json) (List SpO2Day))
    (fs : Nat → Except (Nat × Json) TokenPair)
    (s now : PyDateTime) (chunk : List SpO2Day)
    (hne : creds ≠ [])
    (hok : rs 0 = .ok chunk) :
    fetch_spo2 creds (some s) now ⟨rs, fs, [], []⟩ =
      (.ok chunk, creds,
       ⟨rs, fs,
        [(dictGetD creds "access_token" "",
          ((pymin (s.addDays 1) now).days, now.days))], []⟩) ∧
    (pymin (s.addDays 1) now).Le now := by
  have hemp : creds.isEmpty = false := by
    cases creds with
    | nil => exact absurd rfl hne
    | cons c0 ctl => rfl
  constructor
  · simp [fetch_spo2, get_spo2, api_request, api_do_resource_get, hemp, hok]
  · exact pymin_le_right _ _

/-- Concrete scenario from the spec for C2: watermark 2024-10-05T00:00:00, now
2024-10-06T12:00:00. -/
def c2now : PyDateTime := ⟨(PyDateTime.ofYmd 2024 10 6).days, 43200⟩

/-- Resource script for the C2 witness: the single GET succeeds. -/
def c2rscript : Nat → Except (Nat × Json) (List SpO2Day) := fun _ => .ok []

theorem claim_c2_witness :
    w5creds ≠ [] ∧
    c2rscript 0 = .ok [] ∧
    (fetch_spo2 w5creds (some (PyDateTime.ofYmd 2024 10 5)) c2now
        ⟨c2rscript, c1fscript, [], []⟩ =
      (.ok [], w5creds,
       ⟨c2rscript, c1fscript,
        [("a0", ((PyDateTime.ofYmd 2024 10 6).days, (PyDateTime.ofYmd 2024 10 6).days))],
        []⟩) ∧
     (pymin ((PyDateTime.ofYmd 2024 10 5).addDays 1) c2now).Le c2now) :=
  ⟨by simp [w5creds], rfl,
   claim_c2_incremental_window w5creds c2rscript c1fscript
     (PyDateTime.ofYmd 2024 10 5) c2now [] (by simp [w5creds]) rfl⟩

/-- The resource-call trace the backward backfill walk appends: one call per
window, starting at begin date `d0`, each window 14 days wide and each next
window 15 days earlier. -/
def callList (tok : String) (d0 : Int) : Nat → List (String × UrlPath)
| 0 => [(tok, (d0, d0 + 14))]
| n + 1 => (tok, (d0, d0 + 14)) :: callList tok (d0 - 15) n

/-- The concatenation, in fetch order, of the first `n` scripted chunks. -/
def chunkConcat (chunks : Nat → List SpO2Day) : Nat → List SpO2Day
| 0 => []
| n + 1 => chunks 0 ++ chunkConcat (fun i => chunks (i + 1)) n

theorem backfillLoop_ok :
    ∀ (N : Nat) (chunks : Nat → List SpO2Day) (w : World) (creds : Creds)
      (now begin0 : PyDateTime) (acc : List SpO2Day),
    creds ≠ [] →
    (∀ i, i ≤ N → w.resourceScript (w.resourceCalls.length + i) = .ok (chunks i)) →
    (∀ i, i < N → chunks i ≠ []) →
    chunks N = [] →
    fitbitFloor.days < begin0.days - 15 * N →
    backfillLoop creds now begin0 (begin0.addDays 14) acc w =
      (.ok (acc ++ chunkConcat chunks N), creds,
       { w with resourceCalls := w.resourceCalls ++
           callList (dictGetD creds "access_token" "") begin0.days N }) := by
  intro N
  induction N with
  | zero =>
    intro chunks w creds now begin0 acc hne hok hnem hN hfloor
    have hemp : creds.isEmpty = false := by
      cases creds with
      | nil => exact absurd rfl hne
      | cons c0 ctl => rfl
    have hlt : fitbitFloor.Lt begin0 := Or.inl (by omega)
    rw [backfillLoop, dif_pos hlt]
    have h0 : w.resourceScript w.resourceCalls.length = .ok (chunks 0) := by
      have := hok 0 (Nat.le_refl 0)
      simpa using this
    simp [get_spo2, api_request, api_do_resource_get, hemp, h0, hN,
      chunkConcat, callList, PyDateTime.addDays]
  | succ n ih =>
    intro chunks w creds now begin0 acc hne hok hnem hN hfloor
    have hemp : creds.isEmpty = false := by
      cases creds with
      | nil => exact absurd rfl hne
      | cons c0 ctl => rfl
    have hlt : fitbitFloor.Lt begin0 := Or.inl (by omega)
    rw [backfillLoop, dif_pos hlt]
    have h0 : w.resourceScript w.resourceCalls.length = .ok (chunks 0) := by
      simpa using hok 0 (Nat.zero_le _)
    have hfe : (chunks 0).isEmpty = false := by
      cases hc : chunks 0 with
      | nil => exact absurd hc (hnem 0 (Nat.succ_pos n))
      | cons a l => rfl
    have h14 : begin0.addDays (-1) = (begin0.addDays (-15)).addDays 14 := by
      simp [PyDateTime.addDays]
      omega
    have hrec := ih (fun i => chunks (i + 1))
      { w with resourceCalls := w.resourceCalls ++
          [(dictGetD creds "access_token" "", (begin0.days, begin0.days + 14))] }
      creds now (begin0.addDays (-15)) (acc ++ chunks 0) hne
      (by
        intro i hi
        simp only [List.length_append, List.length_cons, List.length_nil]
        rw [show w.resourceCalls.length + 1 + i = w.resourceCalls.length + (i + 1) by omega]
        exact hok (i + 1) (by omega))
      (fun i hi => hnem (i + 1) (by omega))
      hN
      (by simp [PyDateTime.addDays]; omega)
    simp only [get_spo2, api_request, api_do_resource_get, hemp, h0, hfe,
      Option.getD_some, Bool.false_eq_true, if_false, List.length_append]
    rw [h14]
    simp only [PyDateTime.addDays] at hrec ⊢
    rw [hrec]
    simp [chunkConcat, callList, PyDateTime.addDays, List.append_assoc,
      sub_eq_add_neg]

theorem callList_length (tok : String) (d0 : Int) (N : Nat) :
    (callList tok d0 N).length = N + 1 := by
  induction N generalizing d0 with
  | zero => rfl
  | succ n ih => simp [callList, ih]

theorem backfillLoop_ok_end (N : Nat) (chunks : Nat → List SpO2Day) (w : World)
    (creds : Creds) (now begin0 endDt : PyDateTime) (acc : List SpO2Day)
    (hend : endDt = begin0.addDays 14)
    (hne : creds ≠ [])
    (hok : ∀ i, i ≤ N → w.resourceScript (w.resourceCalls.length + i) = .ok (chunks i))
    (hnem : ∀ i, i < N → chunks i ≠ [])
    (hN : chunks N = [])
    (hfloor : fitbitFloor.days < begin0.days - 15 * N) :
    backfillLoop creds now begin0 endDt acc w =
      (.ok (acc ++ chunkConcat chunks N), creds,
       { w with resourceCalls := w.resourceCalls ++
           callList (dictGetD creds "access_token" "") begin0.days N }) := by
  subst hend
  exact backfillLoop_ok N chunks w creds now begin0 acc hne hok hnem hN hfloor

/-- C3: cold start (no watermark): the backward walk fetches 14-day windows
stepping back 15 days each time; for a source scripted to return `N`
non-empty chunks and then an empty one, the walk issues exactly `N + 1`
resource calls and terminates (the empty chunk is the stop condition),
provided the windows stay above the hard floor date. -/
theorem claim_c3_backfill_termination (creds : Creds)
    (rs : Nat → Except (Nat × Json) (List SpO2Day))
    (fs : Nat → Except (Nat × Json) TokenPair)
    (now : PyDateTime) (chunks : Nat → List SpO2Day) (N : Nat)
    (hne : creds ≠ [])
    (hok : ∀ i, i ≤ N → rs i = .ok (chunks i))
    (hnem : ∀ i, i < N → chunks i ≠ [])
    (hN : chunks N = [])
    (hfloor : fitbitFloor.days < now.days - 14 - 15 * N) :
    fetch_spo2 creds none now ⟨rs, fs, [], []⟩ =
      (.ok (chunkConcat chunks N), creds,
       ⟨rs, fs,
        callList (dictGetD creds "access_token" "") ((now.addDays (-14)).days) N,
        []⟩) ∧
    (callList (dictGetD creds "access_token" "") ((now.addDays (-14)).days) N).length
      = N + 1 := by
  refine ⟨?_, callList_length _ _ _⟩
  have hend : (now : PyDateTime) = (now.addDays (-14)).addDays 14 := by
    cases now with
    | mk d s => simp [PyDateTime.addDays]
  have h := backfillLoop_ok_end N chunks ⟨rs, fs, [], []⟩ creds now
    (now.addDays (-14)) now [] hend hne
    (by intro i hi; simpa using hok i hi)
    hnem hN
    (by simp only [PyDateTime.addDays]; omega)
  simp only [fetch_spo2]
  simpa using h

/-- Chunks for the C3 and C6 witnesses: two non-empty daily chunks (newest
window first, as the walk fetches them), then an empty one. -/
def c6chunks : Nat → List SpO2Day
| 0 => [⟨(PyDateTime.ofYmd 2024 10 1).days, []⟩]
| 1 => [⟨(PyDateTime.ofYmd 2024 9 16).days, []⟩]
| _ => []

/-- Resource script for the C3 and C6 witnesses. -/
def c6rscript : Nat → Except (Nat × Json) (List SpO2Day) :=
  fun n => .ok (c6chunks n)

theorem claim_c3_witness :
    w5creds ≠ [] ∧
    c6chunks 2 = [] ∧
    fitbitFloor.days < c2now.days - 14 - 15 * 2 ∧
    (fetch_spo2 w5creds none c2now ⟨c6rscript, c1fscript, [], []⟩ =
      (.ok (chunkConcat c6chunks 2), w5creds,
       ⟨c6rscript, c1fscript,
        callList (dictGetD w5creds "access_token" "") ((c2now.addDays (-14)).days) 2,
        []⟩) ∧
     (callList (dictGetD w5creds "access_token" "") ((c2now.addDays (-14)).days) 2).length
       = 2 + 1) :=
  ⟨by simp [w5creds], rfl, by decide,
   claim_c3_backfill_termination w5creds c6rscript c1fscript c2now c6chunks 2
     (by simp [w5creds])
     (fun i _ => rfl)
     (by decide)
     rfl
     (by decide)⟩

/-- Modelled from the ordering words of the spec for C6: a list of day payloads
is in chronological order (oldest first) when consecutive `dateTime` day
numbers are nondecreasing. -/
def isChronological : List SpO2Day → Bool
| [] => true
| [_] => true
| a :: b :: rest => (a.date ≤ b.date) && isChronological (b :: rest)

/-- C6 counterexample: on a concrete cold-start run whose two non-empty
chunks carry days 2024-10-01 (first window) and 2024-09-16 (second window),
the backfill returns them in fetch order, newest first, so the returned list
is not in chronological (oldest-first) order. -/
theorem claim_c6_counterexample :
    (fetch_spo2 w5creds none c2now ⟨c6rscript, c1fscript, [], []⟩).1 =
      .ok [⟨(PyDateTime.ofYmd 2024 10 1).days, []⟩,
           ⟨(PyDateTime.ofYmd 2024 9 16).days, []⟩] ∧
    (PyDateTime.ofYmd 2024 9 16).days < (PyDateTime.ofYmd 2024 10 1).days ∧
    isChronological [⟨(PyDateTime.ofYmd 2024 10 1).days, []⟩,
                     ⟨(PyDateTime.ofYmd 2024 9 16).days, []⟩] = false := by
  refine ⟨?_, by decide, by decide⟩
  have hend : (c2now : PyDateTime) = (c2now.addDays (-14)).addDays 14 := by decide
  have h := backfillLoop_ok_end 2 c6chunks ⟨c6rscript, c1fscript, [], []⟩ w5creds
    c2now (c2now.addDays (-14)) c2now [] hend
    (by simp [w5creds])
    (by intro i _; simp [c6rscript])
    (by decide) rfl (by decide)
  have h2 : fetch_spo2 w5creds none c2now ⟨c6rscript, c1fscript, [], []⟩ =
      backfillLoop w5creds c2now (c2now.addDays (-14)) c2now []
        ⟨c6rscript, c1fscript, [], []⟩ := by
    simp only [fetch_spo2]
  rw [h2, h]
  simp [chunkConcat, c6chunks]

/-- C6 as amended: the cold-start backfill returns the non-empty chunks
concatenated in fetch order — the order the backward walk requested them,
newest window first — not reordered into oldest-first chronological order. -/
theorem claim_c6_fetch_order (creds : Creds)
    (rs : Nat → Except (Nat × Json) (List SpO2Day))
    (fs : Nat → Except (Nat × Json) TokenPair)
    (now : PyDateTime) (chunks : Nat → List SpO2Day) (N : Nat)
    (hne : creds ≠ [])
    (hok : ∀ i, i ≤ N → rs i = .ok (chunks i))
    (hnem : ∀ i, i < N → chunks i ≠ [])
    (hN : chunks N = [])
    (hfloor : fitbitFloor.days < now.days - 14 - 15 * N) :
    (fetch_spo2 creds none now ⟨rs, fs, [], []⟩).1 = .ok (chunkConcat chunks N) := by
  have hend : (now : PyDateTime) = (now.addDays (-14)).addDays 14 := by
    cases now with
    | mk d s => simp [PyDateTime.addDays]
  have h := backfillLoop_ok_end N chunks ⟨rs, fs, [], []⟩ creds now
    (now.addDays (-14)) now [] hend hne
    (by intro i hi; simpa using hok i hi)
    hnem hN
    (by simp only [PyDateTime.addDays]; omega)
  simp only [fetch_spo2]
  rw [h]
  simp

theorem claim_c6_witness :
    w5creds ≠ [] ∧
    c6chunks 2 = [] ∧
    (fetch_spo2 w5creds none c2now ⟨c6rscript, c1fscript, [], []⟩).1 =
      .ok (chunkConcat c6chunks 2) :=
  ⟨by simp [w5creds], rfl,
   claim_c6_fetch_order w5creds c6rscript c1fscript c2now c6chunks 2
     (by simp [w5creds]) (fun i _ => rfl) (by decide) rfl (by decide)⟩

/-- C4: when the provider rejects the token refresh itself (an HTTP error
such as 401 on the refresh call), the cycle ends in the generic exception
handler with `CredentialsError` and the credentials file keeps exactly its
pre-cycle contents: the write-back never runs and the in-memory record was
never mutated. -/
theorem claim_c4_refresh_failure_not_persisted (creds : Creds)
    (rs : Nat → Except (Nat × Json) (List SpO2Day))
    (fs : Nat → Except (Nat × Json) TokenPair)
    (db : Db) (t now : PyDateTime) (tzOffsetSecs : Int)
    (rt cid cs : String) (body body2 : Json) (code2 : Nat)
    (hne : creds ≠ [])
    (hrt : dictGet creds "refresh_token" = some rt)
    (hcid : dictGet creds "client_id" = some cid)
    (hcs : dictGet creds "client_secret" = some cs)
    (hdb : db.latestFitbit = some t)
    (h401 : rs 0 = .error (401, body))
    (href : fs 0 = .error (code2, body2)) :
    update ⟨some creds⟩ db tzOffsetSecs now ⟨rs, fs, [], []⟩ =
      (.otherError (.credentialsError (some body2)), ⟨some creds⟩, db,
       ⟨rs, fs,
        [(dictGetD creds "access_token" "",
          ((pymin (t.addDays 1) now).days, now.days))], [rt]⟩) := by
  have hemp : creds.isEmpty = false := by
    cases creds with
    | nil => exact absurd rfl hne
    | cons c0 ctl => rfl
  simp [update, hdb, fetch_spo2, get_spo2, api_request, api_do_resource_get,
    api_refresh_access_token, api_do_auth_post, hemp, h401, hrt, hcid, hcs, href]

/-- The watermark date for the C4 and C7 witnesses. -/
def c7t : PyDateTime := PyDateTime.ofYmd 2024 10 5

/-- Database state for the C4 and C7 witnesses: a watermark exists and no
writes have been issued. -/
def c7db : Db := ⟨some c7t, []⟩

/-- Refresh script that is itself rejected with 401, for the C4 witness. -/
def c4fscript : Nat → Except (Nat × Json) TokenPair :=
  fun _ => .error (401, "bad refresh")

theorem claim_c4_witness :
    w5creds ≠ [] ∧
    c1rscript 0 = .error (401, "expired") ∧
    c4fscript 0 = .error (401, "bad refresh") ∧
    update ⟨some w5creds⟩ c7db 0 c2now ⟨c1rscript, c4fscript, [], []⟩ =
      (.otherError (.credentialsError (some "bad refresh")), ⟨some w5creds⟩, c7db,
       ⟨c1rscript, c4fscript,
        [(dictGetD w5creds "access_token" "",
          ((pymin (c7t.addDays 1) c2now).days, c2now.days))], ["r0"]⟩) :=
  ⟨by simp [w5creds], rfl, rfl,
   claim_c4_refresh_failure_not_persisted w5creds c1rscript c4fscript c7db
     c7t c2now 0 "r0" "cid" "cs" "expired" "bad refresh" 401
     (by simp [w5creds]) rfl rfl rfl rfl rfl rfl⟩

/-- Resource script for C7: 401 on the first GET, then — after a successful
token refresh — a 500 on the retried GET (a transient server error). -/
def c7rscript : Nat → Except (Nat × Json) (List SpO2Day) :=
  fun n => match n with
  | 0 => .error (401, "expired")
  | _ => .error (500, "server error")

/-- C7: the spec says the credential record loaded at cycle start is
persisted back at cycle end even when a transient fetch error (such as a
5xx) occurred, and is only left unpersisted when the credentials themselves
were invalid.  The code does not do this: the write-back sits after the
fetch inside the same `try`, so any fetch error skips it.  On the concrete
cycle below the refresh succeeds and rotates the tokens in the in-memory
record, the retried GET fails with a transient 500 (which `_api_request`
moreover wraps into `CredentialsError`), and `update` ends with the
credentials file still holding the old token pair — the rotated refresh
token is lost.  Also, with a 500 on the very first GET the cycle ends in the
`HTTPStatusError` handler and the write-back is skipped just the same. -/
theorem claim_c7_transient_error_skips_persist :
    update ⟨some w5creds⟩ c7db 0 c2now ⟨c7rscript, c1fscript, [], []⟩ =
      (.otherError (.credentialsError (some "server error")), ⟨some w5creds⟩, c7db,
       ⟨c7rscript, c1fscript,
        [("a0", ((pymin (c7t.addDays 1) c2now).days, c2now.days)),
         ("a1", ((pymin (c7t.addDays 1) c2now).days, c2now.days))], ["r0"]⟩) ∧
    (fetch_spo2 w5creds (some c7t) c2now ⟨c7rscript, c1fscript, [], []⟩).2.1 =
      dictSet (dictSet w5creds "access_token" "a1") "refresh_token" "r1" ∧
    update ⟨some w5creds⟩ c7db 0 c2now
        ⟨fun _ => .error (500, "server error"), c1fscript, [], []⟩ =
      (.httpError 500 "server error", ⟨some w5creds⟩, c7db,
       ⟨fun _ => .error (500, "server error"), c1fscript,
        [("a0", ((pymin (c7t.addDays 1) c2now).days, c2now.days))], []⟩) := by
  refine ⟨rfl, rfl, rfl⟩

/-- Does the row parse completely (valid date, numeric SpO2 and PR)? -/
def parsesRow (r : CsvRow) : Option ParsedRow :=
  match r.date, r.spo2, r.pr with
  | .valid ts, .num s, .num p => some ⟨ts, s, p⟩
  | _, _, _ => none

/-- Is the row one the code logs and skips (a present but non-numeric
SpO2(%) value, or a numeric SpO2 with a present but non-numeric PR(bpm))? -/
def rowSkipped (r : CsvRow) : Bool :=
  match r.spo2, r.pr with
  | .str _, _ => true
  | .num _, .str _ => true
  | _, _ => false

/-- Does the row carry a parseable Date/Time? -/
def dateValid (r : CsvRow) : Bool :=
  match r.date with
  | .valid _ => true
  | _ => false

/-- A concrete CSV file for the C8 counterexample: a fully valid row
followed by a row whose Date/Time does not parse. -/
def c8rows : List CsvRow :=
  [⟨.valid ⟨19000, 3600⟩, .num 98, .num 72⟩,
   ⟨.invalid "13/45/2024 25:00:00", .num 97, .num 70⟩]

/-- C8 counterexample: a row with a malformed Date/Time aborts the whole
file (`strptime` runs outside the `try`), losing the valid row before it,
and a row with a missing SpO2 cell aborts with `TypeError` (not caught by
`except ValueError`); neither is logged and skipped as the claim states. -/
theorem claim_c8_counterexample :
    processRows c8rows = .error (.valueError "13/45/2024 25:00:00") ∧
    fetch_spo2_and_pulse_rate [c8rows] = .error (.valueError "13/45/2024 25:00:00") ∧
    processRows [⟨.valid ⟨19000, 3600⟩, .missing, .num 72⟩] = .error .typeError :=
  ⟨rfl, rfl, rfl⟩

/-- C8 as amended: when every row of the file has a parseable Date/Time and
no missing SpO2/PR cells, a row whose SpO2(%) or PR(bpm) value is present
but non-numeric is logged and skipped, and all other valid rows of the same
file are still parsed, in order; such a row never aborts the file.  Rows
with a malformed or missing Date/Time, or missing numeric cells, abort the
file instead (see the counterexample). -/
theorem claim_c8_nonnumeric_rows_skipped (rows : List CsvRow)
    (h : ∀ r ∈ rows, dateValid r = true ∧ r.spo2 ≠ .missing ∧ r.pr ≠ .missing) :
    processRows rows = .ok (rows.filterMap parsesRow, rows.filter rowSkipped) := by
  induction rows with
  | nil => rfl
  | cons r rest ih =>
    obtain ⟨hr, hrest⟩ : (dateValid r = true ∧ r.spo2 ≠ .missing ∧ r.pr ≠ .missing) ∧
        ∀ x ∈ rest, dateValid x = true ∧ x.spo2 ≠ .missing ∧ x.pr ≠ .missing := by
      constructor
      · exact h r (List.mem_cons_self r rest)
      · exact fun x hx => h x (List.mem_cons_of_mem r hx)
    obtain ⟨hd, hs, hp⟩ := hr
    have hih := ih hrest
    obtain ⟨rdate, rspo2, rpr⟩ := r
    cases rdate with
    | missing => simp [dateValid] at hd
    | invalid raw => simp [dateValid] at hd
    | valid ts =>
      cases rspo2 with
      | missing => exact absurd rfl hs
      | str sraw =>
        simp [processRows, hih, parsesRow, rowSkipped]
      | num sv =>
        cases rpr with
        | missing => exact absurd rfl hp
        | str praw =>
          simp [processRows, hih, parsesRow, rowSkipped]
        | num pv =>
          simp [processRows, hih, parsesRow, rowSkipped]

/-- A concrete CSV file for the C8 witness: a valid row, a row with a
non-numeric SpO2(%) cell, and another valid row. -/
def c8okrows : List CsvRow :=
  [⟨.valid ⟨19000, 3600⟩, .num 98, .num 72⟩,
   ⟨.valid ⟨19000, 3660⟩, .str "--", .num 70⟩,
   ⟨.valid ⟨19000, 3720⟩, .num 97, .num 71⟩]

theorem claim_c8_witness :
    (∀ r ∈ c8okrows, dateValid r = true ∧ r.spo2 ≠ .missing ∧ r.pr ≠ .missing) ∧
    processRows c8okrows =
      .ok (c8okrows.filterMap parsesRow, c8okrows.filter rowSkipped) ∧
    c8okrows.filterMap parsesRow =
      [⟨⟨19000, 3600⟩, 98, 72⟩, ⟨⟨19000, 3720⟩, 97, 71⟩] ∧
    c8okrows.filter rowSkipped = [⟨.valid ⟨19000, 3660⟩, .str "--", .num 70⟩] :=
  ⟨by decide, claim_c8_nonnumeric_rows_skipped c8okrows (by decide), by decide, by decide⟩

end Sleepy
